import Mathlib

/-!
Verification of the Entry Store Synchronizer of the Lab6-journal repository
(the `StorageManager` object of the storage module, plus its callers in
`static/js/main.js`), against its natural-language specification.

The JavaScript source is shallowly embedded:
* a journal entry becomes the structure `Entry`; the caller-supplied
  argument of `saveEntry` (whose fields may each be absent) becomes
  `EntryInput` with `Option` fields;
* the browser-local store (the parsed content of the `journalEntries`
  localStorage slot) becomes `Store := List Entry`; stateful operations
  take the store and return it alongside their result;
* each `await fetch(...)` call site is an input of the model: a
  `FetchOutcome` is either a success carrying the parsed JSON body, a
  non-2xx response, or a thrown network error.  The `Date.now()` and
  `new Date().toISOString()` clock samples are likewise parameters, one
  per call site, since distinct calls may observe different times;
* JavaScript string operations (`toLowerCase`, `includes`, `<=`/`>=`)
  are modelled on Lean strings; for the ASCII date strings and search
  keywords involved, the orders and case mappings agree.
-/

namespace Journal

/-- Geolocation tag of an entry.  `saveEntry`'s default carries only
`city` and `country`; the create path in `main.js` also fills `state`
(so it is optional here).  The numeric `lat`/`lon` coordinates are never
read by any storage operation and are omitted. -/
structure Location where
  city : String
  state : Option String
  country : String
deriving Repr, DecidableEq

/-- A stored journal entry, as serialized into the `journalEntries`
localStorage slot and as exchanged with the remote service. -/
structure Entry where
  id : String
  title : String
  content : String
  date : String
  timestamp : Nat
  location : Location
deriving Repr, DecidableEq

/-- The parsed content of the `journalEntries` localStorage slot. -/
abbrev Store := List Entry

/-- Model of `StorageManager.getAllEntries`: reads and parses the slot (a missing
slot or a parse failure yields `[]`; the model works on the parsed list
directly, so it is the identity). -/
def getAllEntries (store : Store) : List Entry :=
  store

/-- The caller-supplied argument of `StorageManager.saveEntry`: a JS
object on which each entry field may be present or absent. -/
structure EntryInput where
  id : Option String := none
  title : Option String := none
  content : Option String := none
  date : Option String := none
  timestamp : Option Nat := none
  location : Option Location := none
deriving Repr, DecidableEq

/-- The default location object `{ city: 'Unknown', country: 'Unknown' }`
of `saveEntry`. -/
def defaultLocation : Location :=
  { city := "Unknown", state := none, country := "Unknown" }

/-- The `newEntry` object literal of `StorageManager.saveEntry`:
defaults are listed first and `...entry` is spread last, so every field
present on the input overrides the layer-assigned default.  `nowId` is
the `Date.now()` sample of the `id:` line, `nowTs` the one of the
`timestamp:` default, `today` the date string of the `date:` default. -/
def mkNewEntry (nowId nowTs : Nat) (today : String) (e : EntryInput) : Entry :=
  { id := e.id.getD (toString nowId)
    title := e.title.getD ""
    content := e.content.getD ""
    date := e.date.getD today
    timestamp := e.timestamp.getD nowTs
    location := e.location.getD defaultLocation }

/-- Model of `StorageManager.saveEntry`: builds `newEntry`, `unshift`s it onto the
current entries, writes the slot back, returns `true` (the `catch`
branch returning `false` is unreachable in the pure store model). -/
def saveEntry (nowId nowTs : Nat) (today : String) (e : EntryInput)
    (store : Store) : Bool × Store :=
  let entries := getAllEntries store
  let newEntry := mkNewEntry nowId nowTs today e
  (true, newEntry :: entries)

/-- Model of `StorageManager.deleteEntry`: keeps the entries whose `id` differs
from `entryId` (strict string `!==`), writes the slot back, returns
`true`. -/
def deleteEntry (entryId : String) (store : Store) : Bool × Store :=
  let entries := getAllEntries store
  let filteredEntries := entries.filter (fun entry => entry.id != entryId)
  (true, filteredEntries)

/-- Model of `StorageManager.clearAllEntries`: removes the `journalEntries` slot
(so the parsed store becomes `[]`) and returns `true`. -/
def clearAllEntries (_store : Store) : Bool × Store :=
  (true, [])

/-- Outcome of one `fetch` call site: a 2xx response with parsed JSON
body, a non-2xx response (`!response.ok`), or a thrown error. -/
inductive FetchOutcome where
  | ok (entries : List Entry)
  | httpError
  | networkError
deriving Repr, DecidableEq

/-- Returns `true` on the outcomes that make the surrounding `try` block throw
(`!response.ok` raises, a network failure rejects). -/
def FetchOutcome.failed : FetchOutcome → Bool
  | .ok _ => false
  | .httpError => true
  | .networkError => true

/-- The remote side of the synchronizer, one field per `fetch` call
site of the storage module: `useApi` is the `USE_API` flag, `apiFetch`
the `GET /reflections` outcome, `staticFetch` the outcome of fetching
the static `/static/backend/reflections.json` file, `searchFetch` the
`GET /reflections/search?...` outcome, and `deleteResp id` tells whether
`DELETE /delete_reflection/id` succeeds. -/
structure RemoteEnv where
  useApi : Bool
  apiFetch : FetchOutcome
  staticFetch : FetchOutcome
  searchFetch : FetchOutcome
  deleteResp : String → Bool

/-- Model of `StorageManager.fetchEntriesFromJSON`: with `USE_API` it fetches the
Flask endpoint, otherwise the static JSON file; any throw is caught and
yields `[]`.  It never touches the local store. -/
def fetchEntriesFromJSON (env : RemoteEnv) (store : Store) :
    List Entry × Store :=
  if env.useApi then
    match env.apiFetch with
    | .ok entries => (entries, store)
    | _ => ([], store)
  else
    match env.staticFetch with
    | .ok entries => (entries, store)
    | _ => ([], store)

/-- Model of `StorageManager.deleteEntryFromJSON`: `false` when the API is
disabled; otherwise `true` iff the DELETE request succeeded (every
throw is caught and becomes `false`, so the call never rejects). -/
def deleteEntryFromJSON (env : RemoteEnv) (entryId : String) : Bool :=
  if !env.useApi then false
  else env.deleteResp entryId

/-- Model of `StorageManager.clearAllEntriesFromJSON`: `false` when the API is
disabled; otherwise it fetches the remote entries, maps
`deleteEntryFromJSON` over all of them (the issued attempts and their
results are returned in the second component), and returns `true` —
`Promise.all` cannot reject because `deleteEntryFromJSON` swallows every
error, and `fetchEntriesFromJSON` never throws either, so the `catch`
branch returning `false` is unreachable. -/
def clearAllEntriesFromJSON (env : RemoteEnv) (store : Store) :
    Bool × List (String × Bool) :=
  if !env.useApi then (false, [])
  else
    let entries := (fetchEntriesFromJSON env store).1
    let deleteResults :=
      entries.map (fun entry => (entry.id, deleteEntryFromJSON env entry.id))
    (true, deleteResults)

/-- The clear-all button handler of `main.js`: clears the local slot,
then runs the remote clear; overall success is the disjunction.  Result:
(overall success, final local store, issued remote deletions). -/
def clearAllHandler (env : RemoteEnv) (store : Store) :
    Bool × Store × List (String × Bool) :=
  let (localSuccess, store1) := clearAllEntries store
  let (jsonSuccess, attempts) := clearAllEntriesFromJSON env store1
  (localSuccess || jsonSuccess, store1, attempts)

/-- Model of `StorageManager.syncWithJSON`: starts from a copy of the remote
(`jsonEntries`) sequence and pushes each local entry whose id does not
occur among the remote ids; the merged sequence is written back to the
slot and returned. -/
def syncWithJSON (jsonEntries : List Entry) (store : Store) :
    List Entry × Store :=
  let localEntries := getAllEntries store
  let mergedEntries :=
    localEntries.foldl
      (fun acc localEntry =>
        if jsonEntries.any (fun je => je.id == localEntry.id) then acc
        else acc ++ [localEntry])
      jsonEntries
  (mergedEntries, mergedEntries)

/-- JavaScript `String.prototype.toLowerCase` (agrees with the JS
mapping on the ASCII strings this code handles). -/
def jsToLower (s : String) : String :=
  String.mk (s.toList.map Char.toLower)

/-- JavaScript `String.prototype.includes`: substring test. -/
def jsIncludes (hay needle : String) : Bool :=
  decide (needle.toList <:+: hay.toList)

/-- Lexicographic order on character lists, as JavaScript's relational
operators compare strings (code-unit by code-unit, a strict prefix
being smaller). -/
def jsLeChars : List Char → List Char → Bool
  | [], _ => true
  | _ :: _, [] => false
  | a :: as, b :: bs =>
    if a = b then jsLeChars as bs else decide (a.toNat < b.toNat)

/-- JavaScript `a <= b` on strings: lexicographic comparison (agrees
with the JS UTF-16 order on the ASCII date strings this code compares). -/
def jsStrLe (a b : String) : Bool :=
  jsLeChars a.toList b.toList

/-- Model of `StorageManager.clientSideSearch`: sequentially narrows `entries` by
the keyword predicate (case-insensitive substring of title or content),
then `entry.date >= dateFrom`, then `entry.date <= dateTo`; each filter
is applied only when its argument is truthy (non-empty). -/
def clientSideSearch (entries : List Entry) (query dateFrom dateTo : String) :
    List Entry :=
  let f1 :=
    if query != "" then
      let lowerQuery := jsToLower query
      entries.filter (fun entry =>
        jsIncludes (jsToLower entry.title) lowerQuery ||
        jsIncludes (jsToLower entry.content) lowerQuery)
    else entries
  let f2 :=
    if dateFrom != "" then
      f1.filter (fun entry => jsStrLe dateFrom entry.date)
    else f1
  let f3 :=
    if dateTo != "" then
      f2.filter (fun entry => jsStrLe entry.date dateTo)
    else f2
  f3

/-- Model of `StorageManager.searchEntriesInJSON`: with the API disabled, or on a
failed search request, it filters `fetchEntriesFromJSON`'s result
client-side; on a successful search request it returns the server's
(already filtered) entries. -/
def searchEntriesInJSON (env : RemoteEnv) (query dateFrom dateTo : String)
    (store : Store) : List Entry × Store :=
  if !env.useApi then
    let (entries, store1) := fetchEntriesFromJSON env store
    (clientSideSearch entries query dateFrom dateTo, store1)
  else
    match env.searchFetch with
    | .ok entries => (entries, store)
    | _ =>
      let (entries, store1) := fetchEntriesFromJSON env store
      (clientSideSearch entries query dateFrom dateTo, store1)

/-- The entry object built by the form-submission handler of `main.js`
(the create path): no `id`, `timestamp` sampled at submission time
(`tForm`), `date` the submission-time date string. -/
def submittedEntry (tForm : Nat) (todayForm : String)
    (title content : String) (loc : Location) : EntryInput :=
  { id := none
    title := some title
    content := some content
    date := some todayForm
    timestamp := some tForm
    location := some loc }

/-- The entry stored by the create path: the form handler builds
`submittedEntry` and passes it to `saveEntry`, whose own clock samples
are `nowId`/`nowTs`/`todaySave`. -/
def createPathStored (tForm : Nat) (todayForm : String)
    (title content : String) (loc : Location)
    (nowId nowTs : Nat) (todaySave : String) : Entry :=
  mkNewEntry nowId nowTs todaySave (submittedEntry tForm todayForm title content loc)

/-! ### Sample entries for concrete witnesses and counterexamples -/

/-- A remote entry with id "100". -/
def eRemote : Entry :=
  { id := "100", title := "remote", content := "fresh", date := "2024-01-01"
    timestamp := 100, location := defaultLocation }

/-- A local entry sharing id "100" with `eRemote` but with different
content (a stale local copy). -/
def eLocalStale : Entry :=
  { id := "100", title := "local", content := "stale", date := "2024-01-01"
    timestamp := 100, location := defaultLocation }

/-- A local-only entry with id "200". -/
def eOther : Entry :=
  { id := "200", title := "other", content := "o", date := "2024-02-01"
    timestamp := 200, location := defaultLocation }

/-- First entry of the spec's search examples. -/
def eAlpha : Entry :=
  { id := "1", title := "Alpha day", content := "x", date := "2024-01-01"
    timestamp := 1, location := defaultLocation }

/-- Second entry of the spec's search examples. -/
def eBeta : Entry :=
  { id := "2", title := "beta", content := "no match", date := "2024-02-01"
    timestamp := 2, location := defaultLocation }

/-! ### Merge (`syncWithJSON`) lemmas -/

/-- The body of `syncWithJSON`'s `forEach` loop, as a fold: starting
from `init`, it appends exactly the entries of `L` whose id is absent
from the ids of `R`, in order. -/
lemma foldl_push_eq_append_filter (R : List Entry) (L init : List Entry) :
    L.foldl
      (fun acc localEntry =>
        if R.any (fun je => je.id == localEntry.id) then acc
        else acc ++ [localEntry])
      init
      = init ++ L.filter (fun le => !(R.any (fun je => je.id == le.id))) := by
  induction L generalizing init with
  | nil => simp
  | cons x t ih =>
    rw [List.foldl_cons]
    cases hc : R.any (fun je => je.id == x.id) with
    | true =>
      rw [if_pos rfl, ih, List.filter_cons_of_neg]
      simp [hc]
    | false =>
      rw [if_neg (by simp), ih, List.filter_cons_of_pos (by simp [hc]),
        ← List.append_cons]

/-- The merged sequence returned by `syncWithJSON` is the remote
sequence followed by the locals whose id is not among the remote ids. -/
lemma syncWithJSON_fst (R : List Entry) (L : Store) :
    (syncWithJSON R L).1 =
      R ++ L.filter (fun le => !(R.any (fun je => je.id == le.id))) := by
  simpa [syncWithJSON, getAllEntries] using foldl_push_eq_append_filter R L R

/-- Lemma: `syncWithJSON` writes exactly the merged sequence back to the local
store. -/
lemma syncWithJSON_snd (R : List Entry) (L : Store) :
    (syncWithJSON R L).2 = (syncWithJSON R L).1 := rfl

/-- Every entry of the original local store has its id represented in
the merged sequence. -/
lemma any_id_mem_merged (R : List Entry) (L : Store) (l : Entry) (hl : l ∈ L) :
    ((syncWithJSON R L).1).any (fun je => je.id == l.id) = true := by
  rw [syncWithJSON_fst]
  cases hc : R.any (fun je => je.id == l.id) with
  | true =>
    rcases List.any_eq_true.mp hc with ⟨r, hr, hpr⟩
    exact List.any_eq_true.mpr ⟨r, List.mem_append_left _ hr, hpr⟩
  | false =>
    refine List.any_eq_true.mpr ⟨l, List.mem_append_right _ ?_, by simp⟩
    exact List.mem_filter.mpr ⟨hl, by simp [hc]⟩

/-- C1: `syncWithJSON` produces exactly the remote entries in their
given order followed by the local entries whose id is absent from the
remote ids, in local order; that merged sequence is written back to the
local store; every remote entry appears in the result, and a local
entry whose id collides with a remote id appears in the result only if
it is literally one of the remote entries (the local copy is
discarded) — the comparison being by id only, never by fields or
timestamps. -/
theorem syncWithJSON_merges_remote_priority (R : List Entry) (L : Store) :
    (syncWithJSON R L).1 =
        R ++ L.filter (fun le => !(R.any (fun je => je.id == le.id))) ∧
    (syncWithJSON R L).2 = (syncWithJSON R L).1 ∧
    (∀ r, r ∈ R → r ∈ (syncWithJSON R L).1) ∧
    (∀ l, l ∈ L → (∃ r, r ∈ R ∧ r.id = l.id) →
        (l ∈ (syncWithJSON R L).1 ↔ l ∈ R)) := by
  refine ⟨syncWithJSON_fst R L, syncWithJSON_snd R L, ?_, ?_⟩
  · intro r hr
    rw [syncWithJSON_fst]
    exact List.mem_append_left _ hr
  · rintro l hl ⟨r, hrR, hrid⟩
    rw [syncWithJSON_fst]
    constructor
    · intro hm
      rcases List.mem_append.mp hm with h | h
      · exact h
      · exfalso
        have hp := (List.mem_filter.mp h).2
        simp only [Bool.not_eq_true', List.any_eq_false] at hp
        have := hp r hrR
        simp [hrid] at this
    · intro h
      exact List.mem_append_left _ h

/-- C1 witness: on remote `[eRemote]` and local `[eLocalStale, eOther]`
(ids "100" colliding), the merge yields `[eRemote, eOther]` and the
stale local copy is gone. -/
theorem syncWithJSON_merges_remote_priority_witness :
    (syncWithJSON [eRemote] [eLocalStale, eOther]).1 = [eRemote, eOther] ∧
    eLocalStale ∉ (syncWithJSON [eRemote] [eLocalStale, eOther]).1 := by
  have h := syncWithJSON_merges_remote_priority [eRemote] [eLocalStale, eOther]
  refine ⟨?_, ?_⟩
  · rw [h.1]
    decide
  · intro hmem
    have hiff := h.2.2.2 eLocalStale (by decide)
      ⟨eRemote, by decide, by decide⟩
    have := hiff.mp hmem
    exact absurd this (by decide)

/-- C2: the merge is idempotent, in both readings: re-merging the merged
sequence against the original local store reproduces it
(`merge(merge(R,L),L) = merge(R,L)`), and applying the merge with the
same remote sequence a second time, after the first application has
rewritten the local store, yields the same merged sequence and leaves
the store unchanged. -/
theorem syncWithJSON_idempotent (R : List Entry) (L : Store) :
    (syncWithJSON (syncWithJSON R L).1 L).1 = (syncWithJSON R L).1 ∧
    syncWithJSON R (syncWithJSON R L).2 =
      ((syncWithJSON R L).1, (syncWithJSON R L).2) := by
  constructor
  · rw [syncWithJSON_fst (syncWithJSON R L).1 L]
    have hnil : L.filter
        (fun le => !(((syncWithJSON R L).1).any (fun je => je.id == le.id))) = [] := by
      refine List.filter_eq_nil_iff.mpr ?_
      intro l hl
      simp [any_id_mem_merged R L l hl]
    rw [hnil, List.append_nil]
  · have hRfilter : R.filter (fun le => !(R.any (fun je => je.id == le.id))) = [] := by
      refine List.filter_eq_nil_iff.mpr ?_
      intro r hr h
      have hx : R.any (fun je => je.id == r.id) = true :=
        List.any_eq_true.mpr ⟨r, hr, by simp⟩
      simp [hx] at h
    have hFfilter :
        (L.filter (fun le => !(R.any (fun je => je.id == le.id)))).filter
            (fun le => !(R.any (fun je => je.id == le.id)))
          = L.filter (fun le => !(R.any (fun je => je.id == le.id))) := by
      refine List.filter_eq_self.mpr ?_
      intro e he
      exact (List.mem_filter.mp he).2
    have h1 : (syncWithJSON R (syncWithJSON R L).2).1 = (syncWithJSON R L).1 := by
      rw [syncWithJSON_fst R (syncWithJSON R L).2, syncWithJSON_snd,
        syncWithJSON_fst R L, List.filter_append, hRfilter, hFfilter,
        List.nil_append]
    refine Prod.ext h1 ?_
    rw [syncWithJSON_snd, h1, syncWithJSON_snd]

/-! ### Remote environments for concrete witnesses -/

/-- A remote environment with the API enabled and every request
failing. -/
def envApiDown : RemoteEnv :=
  { useApi := true, apiFetch := .httpError, staticFetch := .httpError,
    searchFetch := .httpError, deleteResp := fun _ => false }

/-- A remote environment holding three entries, on which the deletion
of id "200" fails and the others succeed. -/
def envThreeRemote : RemoteEnv :=
  { useApi := true, apiFetch := .ok [eRemote, eOther, eAlpha],
    staticFetch := .httpError, searchFetch := .httpError,
    deleteResp := fun i => !(i == "200") }

/-! ### Fetch (`fetchEntriesFromJSON`) -/

/-- C3 counterexample: with remote mode disabled but the static JSON
file fetch succeeding with one entry, `fetchEntriesFromJSON` returns
that entry, not the empty sequence the claim requires for disabled
mode. -/
theorem fetchEntriesFromJSON_disabled_counterexample :
    (fetchEntriesFromJSON
      { useApi := false, apiFetch := .networkError,
        staticFetch := .ok [eOther], searchFetch := .networkError,
        deleteResp := fun _ => false } []).1 = [eOther] ∧
    ([eOther] : List Entry) ≠ ([] : List Entry) := by
  exact ⟨rfl, by simp⟩

/-- C3 (amended): `fetchEntriesFromJSON` never throws (it is total) and
never writes the local store; with remote mode enabled it returns the
empty sequence whenever the API fetch fails; with remote mode disabled
it instead fetches the static JSON file, returning the empty sequence
on failure but that file's entries on success. -/
theorem fetchEntriesFromJSON_spec (env : RemoteEnv) (store : Store) :
    (fetchEntriesFromJSON env store).2 = store ∧
    (env.useApi = true → env.apiFetch.failed = true →
      (fetchEntriesFromJSON env store).1 = []) ∧
    (env.useApi = false → env.staticFetch.failed = true →
      (fetchEntriesFromJSON env store).1 = []) ∧
    (env.useApi = false → ∀ es, env.staticFetch = .ok es →
      (fetchEntriesFromJSON env store).1 = es) := by
  cases henv : env.useApi with
  | true =>
    cases ha : env.apiFetch <;>
      simp [fetchEntriesFromJSON, henv, ha, FetchOutcome.failed]
  | false =>
    cases hs : env.staticFetch <;>
      simp [fetchEntriesFromJSON, henv, hs, FetchOutcome.failed]

/-- C3 witness: with the API enabled and the fetch failing, the result
is empty and the store of one entry is untouched. -/
theorem fetchEntriesFromJSON_spec_witness :
    (fetchEntriesFromJSON envApiDown [eOther]).1 = [] ∧
    (fetchEntriesFromJSON envApiDown [eOther]).2 = [eOther] := by
  have h := fetchEntriesFromJSON_spec envApiDown [eOther]
  exact ⟨h.2.1 rfl rfl, h.1⟩

/-! ### Bulk clear (`clearAllEntriesFromJSON` and its button handler) -/

/-- C4: with the API enabled, the remote clear reports success; for
every per-id deletion outcome assignment, it still reports success and
issues exactly one deletion per fetched remote entry (in order, so no
failed deletion aborts the rest); and after the clear-all handler the
local store is empty. -/
theorem clearAll_fires_all_deletions (env : RemoteEnv) (store : Store)
    (h : env.useApi = true) :
    (clearAllEntriesFromJSON env store).1 = true ∧
    (∀ dr : String → Bool,
      (clearAllEntriesFromJSON { env with deleteResp := dr } store).1 = true ∧
      ((clearAllEntriesFromJSON { env with deleteResp := dr } store).2).map
          Prod.fst
        = ((fetchEntriesFromJSON env store).1).map Entry.id) ∧
    (clearAllHandler env store).2.1 = [] := by
  refine ⟨?_, ?_, ?_⟩
  · simp [clearAllEntriesFromJSON, h]
  · intro dr
    constructor
    · simp [clearAllEntriesFromJSON, h]
    · simp [clearAllEntriesFromJSON, fetchEntriesFromJSON, deleteEntryFromJSON,
        h, List.map_map, Function.comp]
  · simp [clearAllHandler, clearAllEntries]

/-- C4 witness: on a remote store of three entries where the deletion of
id "200" fails, all three deletions are issued, success is still
reported, and the local store ends empty. -/
theorem clearAll_fires_all_deletions_witness :
    (clearAllEntriesFromJSON envThreeRemote [eLocalStale]).2
        = [("100", true), ("200", false), ("1", true)] ∧
    (clearAllEntriesFromJSON envThreeRemote [eLocalStale]).1 = true ∧
    (clearAllHandler envThreeRemote [eLocalStale]).2.1 = [] := by
  have h := clearAll_fires_all_deletions envThreeRemote [eLocalStale] rfl
  exact ⟨rfl, h.1, h.2.2⟩

/-! ### Local delete (`deleteEntry`) -/

/-- C7: local delete filters by id exclusion — it reports success, its
result holds exactly the prior entries whose id differs from the given
one, in their original relative order (a sublist), and deleting an id
that no entry carries returns the store unchanged, still with
success. -/
theorem deleteEntry_filter_spec (entryId : String) (store : Store) :
    (deleteEntry entryId store).1 = true ∧
    (∀ e, e ∈ (deleteEntry entryId store).2 ↔ e ∈ store ∧ e.id ≠ entryId) ∧
    ((deleteEntry entryId store).2).Sublist store ∧
    ((∀ e, e ∈ store → e.id ≠ entryId) →
      (deleteEntry entryId store).2 = store) := by
  refine ⟨rfl, ?_, ?_, ?_⟩
  · intro e
    simp [deleteEntry, getAllEntries, List.mem_filter]
  · exact List.filter_sublist store
  · intro hall
    simp only [deleteEntry, getAllEntries]
    refine List.filter_eq_self.mpr fun e he => ?_
    simpa using hall e he

/-- C7 witness: deleting the absent id "999" from a one-entry store is
a successful no-op. -/
theorem deleteEntry_filter_spec_witness :
    (deleteEntry "999" [eAlpha]).1 = true ∧
    (deleteEntry "999" [eAlpha]).2 = [eAlpha] := by
  have h := deleteEntry_filter_spec "999" [eAlpha]
  exact ⟨h.1, h.2.2.2 (by decide)⟩

/-! ### Local create (`saveEntry`) -/

/-- C8: `saveEntry` reports success and prepends — after it, the local
collection has the newly stored entry first, the prior entries
unchanged and in their prior order as its tail, and one more element
than before. -/
theorem saveEntry_prepends (nowId nowTs : Nat) (today : String)
    (e : EntryInput) (store : Store) :
    (saveEntry nowId nowTs today e store).1 = true ∧
    ((saveEntry nowId nowTs today e store).2).head? =
        some (mkNewEntry nowId nowTs today e) ∧
    ((saveEntry nowId nowTs today e store).2).tail = store ∧
    ((saveEntry nowId nowTs today e store).2).length = store.length + 1 := by
  exact ⟨rfl, rfl, rfl, by simp [saveEntry, getAllEntries]⟩

/-! ### Field override in `saveEntry` (the spread) -/

/-- A caller-supplied entry carrying every field, for exercising the
spread override. -/
def fullInput : EntryInput :=
  { id := some "X", title := some "T", content := some "C", date := some "D",
    timestamp := some 7,
    location := some { city := "Paris", state := some "IDF", country := "FR" } }

/-- C10: in the stored record built by `saveEntry`, any field present on
the caller-supplied object overrides the layer-assigned default for that
field — its value is kept verbatim; in particular a supplied id
suppresses the freshly generated timestamp-derived id. -/
theorem mkNewEntry_caller_fields_override (nowId nowTs : Nat) (today : String)
    (e : EntryInput) :
    (∀ v, e.id = some v → (mkNewEntry nowId nowTs today e).id = v) ∧
    (∀ v, e.title = some v → (mkNewEntry nowId nowTs today e).title = v) ∧
    (∀ v, e.content = some v → (mkNewEntry nowId nowTs today e).content = v) ∧
    (∀ v, e.date = some v → (mkNewEntry nowId nowTs today e).date = v) ∧
    (∀ v, e.timestamp = some v → (mkNewEntry nowId nowTs today e).timestamp = v) ∧
    (∀ v, e.location = some v → (mkNewEntry nowId nowTs today e).location = v) := by
  refine ⟨?_, ?_, ?_, ?_, ?_, ?_⟩ <;> intro v hv <;> simp [mkNewEntry, hv]

/-- C10 witness: an input carrying all fields keeps them verbatim, and
its id "X" suppresses the generated id "5". -/
theorem mkNewEntry_caller_fields_override_witness :
    (mkNewEntry 5 6 "today" fullInput).id = "X" ∧
    (mkNewEntry 5 6 "today" fullInput).timestamp = 7 ∧
    (mkNewEntry 5 6 "today" fullInput).id ≠ toString 5 := by
  have h := mkNewEntry_caller_fields_override 5 6 "today" fullInput
  exact ⟨h.1 "X" rfl, h.2.2.2.2.1 7 rfl, by decide⟩

/-! ### Identifier versus timestamp on the create path -/

/-- C9 counterexample: if the clock reads 0 ms at form submission and
1 ms inside `saveEntry`, the stored id is "1" while the stored
timestamp is 0, so the id is not the decimal rendering of the stored
timestamp. -/
theorem createPath_id_counterexample :
    (createPathStored 0 "2024-01-01" "t" "c" defaultLocation 1 1 "2024-01-01").id
      ≠ toString
        (createPathStored 0 "2024-01-01" "t" "c" defaultLocation
          1 1 "2024-01-01").timestamp := by
  decide

/-- C9 (amended): on the create path the stored id is the decimal
string of the `Date.now()` sample taken inside `saveEntry`, while the
stored timestamp is the earlier sample taken by the form handler; the
id is the decimal rendering of the stored timestamp exactly under the
assumption that the two samples agree (same millisecond). -/
theorem createPath_id_from_save_clock (tForm nowId nowTs : Nat)
    (todayForm todaySave title content : String) (loc : Location) :
    (createPathStored tForm todayForm title content loc nowId nowTs todaySave).id
        = toString nowId ∧
    (createPathStored tForm todayForm title content loc nowId nowTs
        todaySave).timestamp
        = tForm ∧
    (tForm = nowId →
      (createPathStored tForm todayForm title content loc nowId nowTs
          todaySave).id
        = toString
          (createPathStored tForm todayForm title content loc nowId nowTs
            todaySave).timestamp) := by
  refine ⟨rfl, rfl, ?_⟩
  intro h
  simp [createPathStored, mkNewEntry, submittedEntry, h]

/-- C9 witness: when both clock samples read 2 ms, the stored id is the
decimal rendering of the stored timestamp. -/
theorem createPath_id_from_save_clock_witness :
    (createPathStored 2 "d" "t" "c" defaultLocation 2 2 "d").id
      = toString (createPathStored 2 "d" "t" "c" defaultLocation 2 2 "d").timestamp := by
  exact (createPath_id_from_save_clock 2 2 2 "d" "d" "t" "c" defaultLocation).2.2 rfl

/-! ### Client-side search -/

/-- The search predicate as the specification words it: the conjunction
of a case-insensitive substring match of the keyword against title or
content (when a keyword is given), `dateFrom <= date` (when `dateFrom`
is given) and `date <= dateTo` (when `dateTo` is given), under JS
string comparison. -/
def searchSpecPred (query dateFrom dateTo : String) (e : Entry) : Bool :=
  (query == "" ||
    (jsIncludes (jsToLower e.title) (jsToLower query) ||
     jsIncludes (jsToLower e.content) (jsToLower query))) &&
  (dateFrom == "" || jsStrLe dateFrom e.date) &&
  (dateTo == "" || jsStrLe e.date dateTo)

/-- Selection of exactly the entries satisfying the specification's
conjunctive predicate, in their original order. -/
def clientSideSearchSpec (entries : List Entry) (q df dt : String) :
    List Entry :=
  entries.filter (searchSpecPred q df dt)

/-- Rotating a three-fold Boolean conjunction. -/
lemma bool_and_rot (a b c : Bool) : ((c && b) && a) = ((a && b) && c) := by
  cases a <;> cases b <;> cases c <;> rfl

/-- A conditionally applied filter equals filtering with the guard
disjoined into the predicate. -/
lemma guard_filter (l : List Entry) (c : Bool) (p : Entry → Bool) :
    (if !c then l.filter p else l) = l.filter (fun e => c || p e) := by
  cases c with
  | true => simp
  | false => simp

/-- The three sequential conditional filters of `clientSideSearch`
amount to one filter by the specification's conjunctive predicate. -/
lemma clientSideSearch_eq_filter (entries : List Entry) (q df dt : String) :
    clientSideSearch entries q df dt = clientSideSearchSpec entries q df dt := by
  simp only [clientSideSearch, clientSideSearchSpec, bne]
  rw [guard_filter, guard_filter, guard_filter, List.filter_filter,
    List.filter_filter]
  refine List.filter_congr fun x _ => ?_
  simp only [searchSpecPred]
  apply bool_and_rot

/-- C5: `clientSideSearch` returns exactly the entries satisfying the
conjunction of the keyword, lower-bound and upper-bound predicates (each
applied only when given); on the spec's two sample entries, keyword
"alpha" selects only the first and the date bounds select only the
second. -/
theorem clientSideSearch_conjunctive (entries : List Entry) (q df dt : String) :
    clientSideSearch entries q df dt = clientSideSearchSpec entries q df dt ∧
    clientSideSearch [eAlpha, eBeta] "alpha" "" "" = [eAlpha] ∧
    clientSideSearch [eAlpha, eBeta] "" "2024-01-15" "2024-02-15" = [eBeta] := by
  exact ⟨clientSideSearch_eq_filter entries q df dt, by decide, by decide⟩

/-! ### Remote search fallback -/

/-- The fetched sequence does not depend on the local store. -/
lemma fetchEntriesFromJSON_fst_const (env : RemoteEnv) (s s' : Store) :
    (fetchEntriesFromJSON env s).1 = (fetchEntriesFromJSON env s').1 := by
  obtain ⟨u, a, st, se, d⟩ := env
  cases u with
  | true => cases a <;> rfl
  | false => cases st <;> rfl

/-- C6 counterexample: with the API enabled, the search request and the
fetch both failing, and one entry in the local store, the search
returns the empty sequence — not the client-side filtering of the
local collection, which would keep that entry. -/
theorem searchEntriesInJSON_fallback_counterexample :
    (searchEntriesInJSON envApiDown "" "" "" [eOther]).1 = [] ∧
    clientSideSearch (getAllEntries [eOther]) "" "" "" = [eOther] ∧
    ([] : List Entry) ≠ [eOther] := by
  refine ⟨by decide, by decide, by simp⟩

/-- C6 (amended): with the API enabled and the remote search failing,
the search returns the client-side filtering of `fetchEntriesFromJSON`'s
result — the remote fetch result, never the local collection: the
result is independent of the local store, the store is not written, and
when the fetch fails too the result is empty regardless of local
entries. -/
theorem searchEntriesInJSON_fallback (env : RemoteEnv) (q df dt : String)
    (store : Store) (h : env.useApi = true)
    (hs : env.searchFetch.failed = true) :
    (searchEntriesInJSON env q df dt store).1 =
        clientSideSearch (fetchEntriesFromJSON env store).1 q df dt ∧
    (searchEntriesInJSON env q df dt store).2 = store ∧
    (∀ store' : Store, (searchEntriesInJSON env q df dt store').1 =
        (searchEntriesInJSON env q df dt store).1) ∧
    (env.apiFetch.failed = true →
      (searchEntriesInJSON env q df dt store).1 = []) := by
  have hsearch : ∀ s : Store, (searchEntriesInJSON env q df dt s).1 =
      clientSideSearch (fetchEntriesFromJSON env s).1 q df dt := by
    intro s
    cases hsf : env.searchFetch with
    | ok es => rw [hsf] at hs; simp [FetchOutcome.failed] at hs
    | httpError => simp [searchEntriesInJSON, h, hsf]
    | networkError => simp [searchEntriesInJSON, h, hsf]
  refine ⟨hsearch store, ?_, ?_, ?_⟩
  · cases hsf : env.searchFetch with
    | ok es => rw [hsf] at hs; simp [FetchOutcome.failed] at hs
    | httpError =>
      cases hfa : env.apiFetch <;>
        simp [searchEntriesInJSON, fetchEntriesFromJSON, h, hsf, hfa]
    | networkError =>
      cases hfa : env.apiFetch <;>
        simp [searchEntriesInJSON, fetchEntriesFromJSON, h, hsf, hfa]
  · intro store'
    rw [hsearch store', hsearch store,
      fetchEntriesFromJSON_fst_const env store' store]
  · intro hfa
    rw [hsearch store]
    have : (fetchEntriesFromJSON env store).1 = [] := by
      cases hfa2 : env.apiFetch <;>
        simp_all [fetchEntriesFromJSON, FetchOutcome.failed, h, hfa2]
    rw [this, clientSideSearch_eq_filter]
    rfl

/-- C6 witness: with everything remote failing, the search equals the
client-side filtering of the (empty) fetch result. -/
theorem searchEntriesInJSON_fallback_witness :
    (searchEntriesInJSON envApiDown "a" "" "" [eOther]).1 =
        clientSideSearch (fetchEntriesFromJSON envApiDown [eOther]).1 "a" "" "" ∧
    (searchEntriesInJSON envApiDown "a" "" "" [eOther]).1 = [] := by
  have h := searchEntriesInJSON_fallback envApiDown "a" "" "" [eOther]
    (by rfl) (by rfl)
  exact ⟨h.1, h.2.2.2 (by rfl)⟩

end Journal
